import Mathlib

/-!
Shallow embedding of the fedimg GCE service (src/fedimg/services/gce.py,
src/fedimg/util.py, src/fedimg/common.py) and proofs about it.

Remote provider calls (libcloud compute/storage, paramiko SSH, HTTP GET) are
modelled as explicit behaviour parameters; the Python methods become pure Lean
functions from a behaviour and the service state to a result together with the
trace of provider calls they issue.  Python exceptions become `Except` values.
-/

namespace Fedimg

/-! ### Characters and strings

`isAlnumChar` is the character class `[a-zA-Z\d]` from the regex in
`GCEService.test` (gce.py line 123). -/

def isAlnumChar (c : Char) : Bool :=
  (('a' ≤ c && c ≤ 'z') || ('A' ≤ c && c ≤ 'Z') || ('0' ≤ c && c ≤ '9'))

/-- `re.sub('[^a-zA-Z\d]+', '-', s)` on a character list: every maximal run of
characters outside `[a-zA-Z0-9]` is replaced by a single hyphen (the regex
engine finds the leftmost match, extends it greedily, substitutes one `-`,
and resumes after the run).  `inRun` records whether the previous character
belonged to a non-alphanumeric run whose hyphen is already emitted. -/
def collapseGo (inRun : Bool) : List Char → List Char
  | [] => []
  | c :: cs =>
    if isAlnumChar c then c :: collapseGo false cs
    else if inRun then collapseGo true cs
    else '-' :: collapseGo true cs

def collapseNonAlnum (l : List Char) : List Char :=
  collapseGo false l

/-- Python `s.split(sep)[0]` for a non-empty separator: the portion of `s`
before the first occurrence of `sep`, or all of `s` when `sep` never occurs. -/
def splitHead (sep : List Char) : List Char → List Char
  | [] => []
  | c :: cs =>
    if sep.isPrefixOf (c :: cs) then []
    else c :: splitHead sep cs

/-- Whether `sep` occurs as a contiguous subsequence. -/
def containsSeq (sep : List Char) : List Char → Bool
  | [] => sep.isEmpty
  | c :: cs => sep.isPrefixOf (c :: cs) || containsSeq sep cs

def strContains (s pat : String) : Bool :=
  containsSeq pat.data s.data

/-- The character list of the archive marker `.tar.gz`. -/
def tarGz : List Char := ['.', 't', 'a', 'r', '.', 'g', 'z']

/-- gce.py lines 121-124: the GCE image name derived from the storage object
name: `re.sub('[^a-zA-Z\d]+', '-', image.name.split('.tar.gz')[0])`. -/
def gce_image_name (name : String) : String :=
  ⟨collapseNonAlnum (splitHead tarGz name.data)⟩

/-- Modelled from the spec: the derived-name computation as C6 words it —
strip the `.tar.gz` suffix when present (leave the name unchanged otherwise),
then collapse every maximal non-alphanumeric run to a single hyphen.  Used
only to compare the spec's wording with the source's `split('.tar.gz')[0]`. -/
def specSuffixImageName (name : String) : String :=
  let l := name.data
  let base := if tarGz.isSuffixOf l then l.take (l.length - tarGz.length) else l
  ⟨collapseNonAlnum base⟩

example : gce_image_name "fake-img-1.2-3.tar.gz" = "fake-img-1-2-3" := by decide

example : gce_image_name "x.tar.gz.sha256" = "x" := by decide

example : specSuffixImageName "x.tar.gz.sha256" = "x-tar-gz-sha256" := by decide

/-! ### The SSH reachability probe (util.py lines 84-106)

`ssh.connect` outcomes are a behaviour `conn : Nat → Bool` giving the result
of the k-th connection attempt (k counted from 1, as the Python `attempt`
variable does).  The loop is

    attempt = 0
    while True:
        attempt += 1
        try: connect; return True
        except retryable: if attempt >= attempts: return False
                          sleep(interval)

`sshGo` mirrors one iteration; along with the boolean result it counts the
attempts made and the `time.sleep(interval)` calls issued. -/

structure SSHOutcome where
  works : Bool
  attemptsMade : Nat
  sleeps : Nat
  deriving Repr, DecidableEq

/-- One loop iteration at attempt number `attempt + 1`.  The loop body
returns `False` after a failed attempt exactly when `attempt >= attempts`;
equivalently, the failed attempt on which the loop gives up is attempt
number `max attempts 1`, so `remaining = (attempts - attempt - 1).toNat`
counts the iterations still allowed after the current one.  `made` and
`sleeps` accumulate the attempts made and the `time.sleep(interval)` calls
issued so far. -/
def sshGo (conn : Nat → Bool) (attempt made sleeps : Nat) :
    Nat → SSHOutcome
  | 0 =>
    if conn (attempt + 1) then ⟨true, made + 1, sleeps⟩
    else ⟨false, made + 1, sleeps⟩
  | r + 1 =>
    if conn (attempt + 1) then ⟨true, made + 1, sleeps⟩
    else sshGo conn (attempt + 1) (made + 1) (sleeps + 1) r

/-- util.py `ssh_connection_works(username, ip, keypath, attempts, interval)`;
the username, address, credential path and interval do not influence the
control flow, so the model keeps the attempt outcomes and the budget. -/
def ssh_connection_works (conn : Nat → Bool) (attempts : Int) : SSHOutcome :=
  sshGo conn 0 0 0 (attempts - 1).toNat

example : ssh_connection_works (fun _ => false) 3 = ⟨false, 3, 2⟩ := by decide

example : ssh_connection_works (fun k => k == 2) 5 = ⟨true, 2, 1⟩ := by decide

example : ssh_connection_works (fun _ => false) 0 = ⟨false, 1, 0⟩ := by decide

/-! ### Data model (gce.py, common.py)

Provider objects carry exactly the attributes the code reads.  Sizes have a
`price` (Python float, compared only — modelled as a rational). -/

structure Config where
  GCE_STORAGE_CONTAINER : String
  GCE_EMAIL : String
  deriving DecidableEq

structure SourceImage where
  name : String
  deriving DecidableEq

structure GCEImage where
  name : String
  deriving DecidableEq

structure Node where
  name : String
  public_ips : List String
  deriving DecidableEq

structure Location where
  lid : Nat
  deriving DecidableEq

structure Size where
  sid : Nat
  price : ℚ
  deriving DecidableEq

/-- The mutable service state: `self.gce_images` and `self.nodes`
(gce.py lines 58 and 61), both empty when the service is constructed. -/
structure ServiceState where
  gce_images : List GCEImage
  nodes : List Node
  deriving DecidableEq

/-! ### Size sorting (gce.py lines 142-144)

`sizes.sort(key=lambda x: x.price)` is Python's stable in-place sort;
a stable insertion sort has the same input/output behaviour. -/

def insertByPrice (x : Size) : List Size → List Size
  | [] => [x]
  | y :: ys => if x.price ≤ y.price then x :: y :: ys else y :: insertByPrice x ys

def sortByPrice : List Size → List Size
  | [] => []
  | x :: xs => insertByPrice x (sortByPrice xs)

/-! ### cleanup (gce.py lines 73-90)

Each `destroy_node`/`delete` call either returns a boolean, raises
`ResourceNotFoundError` (the only caught exception class), or raises some
other exception.  Behaviour functions give the outcome of the call for the
resource at each list position. -/

inductive DestroyResult
  | ok (b : Bool)
  | resourceNotFound
  | otherError
  deriving DecidableEq

/-- A `destroy_node(node, destroy_boot_disk=True)` call, identified by the
position of the node in `self.nodes`. -/
structure DestroyCall where
  idx : Nat
  destroy_boot_disk : Bool
  deriving DecidableEq

/-- The `for node in self.nodes` loop: issue one destroy per node in order;
`ok b` and `resourceNotFound` continue (a `false` return only logs a
warning, the caught exception only logs a debug line); any other exception
escapes the loop at once.  Returns the issued calls and whether the loop
finished without an escaping exception. -/
def destroyNodesLoop (beh : Nat → DestroyResult) : Nat → Nat → List DestroyCall × Bool
  | _, 0 => ([], true)
  | i, r + 1 =>
    match beh i with
    | .otherError => ([⟨i, true⟩], false)
    | _ =>
      let rest := destroyNodesLoop beh (i + 1) r
      (⟨i, true⟩ :: rest.1, rest.2)

/-- The `for gce_image in self.gce_images` loop; `delete()` takes no
arguments, so a call is just the image's position. -/
def deleteImagesLoop (beh : Nat → DestroyResult) : Nat → Nat → List Nat × Bool
  | _, 0 => ([], true)
  | i, r + 1 =>
    match beh i with
    | .otherError => ([i], false)
    | _ =>
      let rest := deleteImagesLoop beh (i + 1) r
      (i :: rest.1, rest.2)

structure CleanupResult where
  nodeCalls : List DestroyCall
  imageCalls : List Nat
  completed : Bool
  state : ServiceState
  deriving DecidableEq

/-- `GCEService.cleanup`: destroy every node, then delete every image.  An
exception other than `ResourceNotFoundError` from a call propagates out of
`cleanup` immediately (`completed = false`), skipping the rest.  The method
never mutates `self.nodes` or `self.gce_images`, so the final state is the
input state. -/
def cleanup (bn bi : Nat → DestroyResult) (st : ServiceState) : CleanupResult :=
  let n := destroyNodesLoop bn 0 st.nodes.length
  if n.2 then
    let im := deleteImagesLoop bi 0 st.gce_images.length
    ⟨n.1, im.1, im.2, st⟩
  else ⟨n.1, [], false, st⟩

/-! ### upload (gce.py lines 92-116) -/

/-- `os.path.basename`: the portion of the path after the last `/`. -/
def pyBasename (s : String) : String :=
  ⟨(s.data.reverse.takeWhile (fun c => c ≠ '/')).reverse⟩

inductive UploadErr
  | imageURLError (msg : String)
  deriving DecidableEq

/-- Outcomes of the collaborator calls `upload` makes: whether
`get_container` finds the container (else `ContainerDoesNotExistError` is
caught and `create_container` is called), and the `requests.get` response. -/
structure UploadBehaviour where
  container_exists : Bool
  resp_ok : Bool
  status_code : Int

structure UploadResult where
  created_container : Bool
  uploaded_object : String
  deriving DecidableEq

/-- `GCEService.upload`: resolve the container, open the stream, and raise
`ImageURLError` before any `upload_object_via_stream` call when the response
is not ok. -/
def upload (b : UploadBehaviour) (image_url : String) :
    Except UploadErr UploadResult :=
  let object_name := pyBasename image_url
  if !b.resp_ok then
    .error (.imageURLError ("GET request to image failed (" ++ image_url ++
      "). The server response code was " ++ toString b.status_code))
  else
    .ok ⟨!b.container_exists, object_name⟩

/-! ### test (gce.py lines 118-172) -/

inductive TestErr
  | providerError
  | sshConnectionError (msg : String)
  | indexError
  deriving DecidableEq

/-- Outcomes of the compute-provider calls `test` makes.  `Except Unit` on a
creation call stands for the call either returning the object or raising a
provider-side exception. -/
structure TestBehaviour where
  ex_create_image : String → String → Except Unit GCEImage
  list_locations : List Location
  list_sizes : Location → List Size
  create_node : String → Size → GCEImage → Location → Except Unit Node
  wait_until_running : Node → Except Unit Unit
  conn : Nat → Bool

def STORAGE_URL : String := "https://storage.googleapis.com"

/-- `GCEService.test`: register the image (recording it at once), pick
`list_locations()[0]`, sort the sizes by price and pick index 0, launch and
record the node, wait for running, then probe SSH with a budget of 60
attempts at 60-second intervals.  Empty provider lists make the Python
index expressions raise `IndexError`; the method returns its result together
with the state, which retains everything appended before the failure. -/
def test (cfg : Config) (b : TestBehaviour) (image : SourceImage)
    (st : ServiceState) : Except TestErr Unit × ServiceState :=
  let gname := gce_image_name image.name
  let image_url := STORAGE_URL ++ "/" ++ cfg.GCE_STORAGE_CONTAINER ++ "/" ++
    image.name
  match b.ex_create_image gname image_url with
  | .error _ => (.error .providerError, st)
  | .ok gce_image =>
    let st1 : ServiceState := ⟨st.gce_images ++ [gce_image], st.nodes⟩
    match b.list_locations with
    | [] => (.error .indexError, st1)
    | location :: _ =>
      match sortByPrice (b.list_sizes location) with
      | [] => (.error .indexError, st1)
      | size :: _ =>
        match b.create_node gce_image.name size gce_image location with
        | .error _ => (.error .providerError, st1)
        | .ok node =>
          let st2 : ServiceState := ⟨st1.gce_images, st1.nodes ++ [node]⟩
          match b.wait_until_running node with
          | .error _ => (.error .providerError, st2)
          | .ok _ =>
            match node.public_ips with
            | [] => (.error .indexError, st2)
            | _ :: _ =>
              if (ssh_connection_works b.conn 60).works then
                (.ok (), st2)
              else
                (.error (.sshConnectionError ("Cannot SSH to test instance " ++
                  node.name ++
                  ". Perhaps the image is improperly configured for GCE.")),
                 st2)

/-! ### share and publish (gce.py lines 174-187) -/

/-- One `ex_set_permissions` call. -/
structure Permission where
  container : String
  object_name : String
  entity : String
  role : String
  deriving DecidableEq

/-- `GCEService.share`: one READER grant per entity, on the image's object
name in the configured container. -/
def share (cfg : Config) (image : SourceImage) (entities : List String) :
    List Permission :=
  entities.map (fun e => ⟨cfg.GCE_STORAGE_CONTAINER, image.name, e, "READER"⟩)

/-- `GCEService.publish`: a single READER grant to `allUsers`. -/
def publish (cfg : Config) (image : SourceImage) : List Permission :=
  [⟨cfg.GCE_STORAGE_CONTAINER, image.name, "allUsers", "READER"⟩]

/-- A concrete provider behaviour for witnesses: registration and launch
succeed, one location, two sizes with the cheaper one second, one public
address, the instance reaches running, and SSH succeeds at once. -/
def demoBehaviour : TestBehaviour where
  ex_create_image := fun n _ => .ok ⟨n⟩
  list_locations := [⟨0⟩]
  list_sizes := fun _ => [⟨0, 3⟩, ⟨1, 1⟩]
  create_node := fun n _ _ _ => .ok ⟨n, ["10.0.0.1"]⟩
  wait_until_running := fun _ => .ok ()
  conn := fun _ => true

def demoConfig : Config := ⟨"fedimg", "user@example.com"⟩

def demoImage : SourceImage := ⟨"fake-img-1.2-3.tar.gz"⟩

/-! ## Lemmas about the derived image name -/

theorem splitHead_of_not_contains {sep l : List Char}
    (h : containsSeq sep l = false) : splitHead sep l = l := by
  induction l with
  | nil => rfl
  | cons c cs ih =>
    simp only [containsSeq, Bool.or_eq_false_iff] at h
    simp [splitHead, h.1, ih h.2]

theorem isPrefixOf_append_of_length_le {p l r : List Char}
    (h : p.length ≤ l.length) : p.isPrefixOf (l ++ r) = p.isPrefixOf l := by
  rw [Bool.eq_iff_iff]
  simp only [List.isPrefixOf_iff_prefix]
  constructor
  · intro hp
    rw [List.prefix_iff_eq_take] at hp ⊢
    rw [List.take_append_eq_append_take, Nat.sub_eq_zero_of_le h,
      List.take_zero, List.append_nil] at hp
    exact hp
  · intro hp
    exact hp.trans (List.prefix_append l r)

/-- `.tar.gz` has no non-trivial border: no proper non-empty prefix of it is
also a suffix, so an occurrence of `.tar.gz` in `base ++ ".tar.gz"` cannot
straddle the boundary. -/
theorem tarGz_no_border :
    ∀ m, 1 ≤ m → m < tarGz.length →
      tarGz.drop m ≠ tarGz.take (tarGz.length - m) := by
  intro m h1 h2
  simp only [tarGz, List.length_cons, List.length_nil] at h2 ⊢
  interval_cases m <;> decide

theorem splitHead_append_tarGz {cs : List Char}
    (h : containsSeq tarGz cs = false) :
    splitHead tarGz (cs ++ tarGz) = cs := by
  induction cs with
  | nil => decide
  | cons c cs ih =>
    simp only [containsSeq, Bool.or_eq_false_iff] at h
    have hpre : tarGz.isPrefixOf ((c :: cs) ++ tarGz) = false := by
      by_cases hlen : tarGz.length ≤ (c :: cs).length
      · rw [isPrefixOf_append_of_length_le hlen]
        exact h.1
      · cases hp : tarGz.isPrefixOf ((c :: cs) ++ tarGz) with
        | false => rfl
        | true =>
          exfalso
          rw [List.isPrefixOf_iff_prefix, List.prefix_iff_eq_take,
            List.take_append_eq_append_take,
            List.take_of_length_le (by omega : (c :: cs).length ≤ tarGz.length)]
            at hp
          have hdrop := congrArg (List.drop (c :: cs).length) hp
          rw [List.drop_left] at hdrop
          exact tarGz_no_border (c :: cs).length (by simp)
            (by omega) hdrop
    simp only [List.cons_append] at hpre
    simp [splitHead, hpre, ih h.2]

/-! ## Lemmas about the SSH probe loop -/

theorem sshGo_all_fail (conn : Nat → Bool) :
    ∀ r a m s, (∀ j, a + 1 ≤ j → j ≤ a + 1 + r → conn j = false) →
      sshGo conn a m s r = ⟨false, m + r + 1, s + r⟩ := by
  intro r
  induction r with
  | zero =>
    intro a m s h
    simp [sshGo, h (a + 1) le_rfl (by omega)]
  | succ r ih =>
    intro a m s h
    rw [sshGo, if_neg (by simp [h (a + 1) le_rfl (by omega)]),
      ih (a + 1) (m + 1) (s + 1) (fun j h1 h2 => h j (by omega) (by omega))]
    simp only [SSHOutcome.mk.injEq]
    refine ⟨trivial, by omega, by omega⟩

theorem sshGo_first_success (conn : Nat → Bool) :
    ∀ r a m s k, a + 1 ≤ k → k ≤ a + 1 + r → conn k = true →
      (∀ j, a + 1 ≤ j → j < k → conn j = false) →
      sshGo conn a m s r = ⟨true, m + (k - a), s + (k - a - 1)⟩ := by
  intro r
  induction r with
  | zero =>
    intro a m s k hk1 hk2 hk hfail
    have : k = a + 1 := by omega
    subst this
    rw [sshGo, if_pos (by simp [hk])]
    simp only [SSHOutcome.mk.injEq]
    refine ⟨trivial, by omega, by omega⟩
  | succ r ih =>
    intro a m s k hk1 hk2 hk hfail
    by_cases hka : k = a + 1
    · subst hka
      rw [sshGo, if_pos (by simp [hk])]
      simp only [SSHOutcome.mk.injEq]
      refine ⟨trivial, by omega, by omega⟩
    · rw [sshGo, if_neg (by simp [hfail (a + 1) le_rfl (by omega)]),
        ih (a + 1) (m + 1) (s + 1) k (by omega) (by omega) hk
          (fun j h1 h2 => hfail j (by omega) h2)]
      simp only [SSHOutcome.mk.injEq]
      refine ⟨trivial, by omega, by omega⟩


/-! ## C4: the reachability probe -/

/-- C4 (amended: attempt budgets ≥ 1; the `while True` loop always makes at
least one attempt, so a budget of 0 or less still yields one attempt).
For every connection behaviour and every attempt budget ≥ 1: the probe
returns true on the first successful attempt, having made exactly that many
attempts and slept once between consecutive attempts (none after the last);
it returns false only after making exactly `attempts` failed attempts, with
`attempts - 1` sleeps. -/
theorem ssh_probe_bounded_retry (conn : Nat → Bool) (attempts : Int)
    (hpos : 1 ≤ attempts) :
    (∀ k : Nat, 1 ≤ k → (k : Int) ≤ attempts → conn k = true →
      (∀ j, 1 ≤ j → j < k → conn j = false) →
      ssh_connection_works conn attempts = ⟨true, k, k - 1⟩) ∧
    ((∀ k : Nat, 1 ≤ k → (k : Int) ≤ attempts → conn k = false) →
      ssh_connection_works conn attempts =
        ⟨false, attempts.toNat, attempts.toNat - 1⟩) := by
  constructor
  · intro k h1 h2 hk hfail
    rw [ssh_connection_works,
      sshGo_first_success conn ((attempts - 1).toNat) 0 0 0 k (by omega)
        (by omega) hk (fun j ha hb => hfail j ha hb)]
    simp only [SSHOutcome.mk.injEq]
    refine ⟨trivial, by omega, by omega⟩
  · intro hfail
    rw [ssh_connection_works,
      sshGo_all_fail conn ((attempts - 1).toNat) 0 0 0
        (fun j ha hb => hfail j ha (by omega))]
    simp only [SSHOutcome.mk.injEq]
    refine ⟨trivial, by omega, by omega⟩

/-- C4 witness: at budget 3, success on attempt 2 gives `(true, 2 attempts,
1 sleep)`; all attempts failing gives `(false, 3 attempts, 2 sleeps)`. -/
theorem ssh_probe_bounded_retry_witness :
    ssh_connection_works (fun k => k == 2) 3 = ⟨true, 2, 1⟩ ∧
    ssh_connection_works (fun _ => false) 3 = ⟨false, 3, 2⟩ := by
  constructor
  · exact (ssh_probe_bounded_retry (fun k => k == 2) 3 (by omega)).1 2
      (by omega) (by omega) (by decide)
      (fun j h1 h2 => by interval_cases j; decide)
  · exact (ssh_probe_bounded_retry (fun _ => false) 3 (by omega)).2
      (fun k _ _ => rfl)

/-- C4 counterexample: with an attempt budget of 0 and every attempt
failing, the probe still makes one attempt before returning false, not the
"exactly `attempts` (= 0) failed attempts" the claim states. -/
theorem ssh_probe_zero_budget_counterexample :
    (ssh_connection_works (fun _ => false) 0).works = false ∧
    (ssh_connection_works (fun _ => false) 0).attemptsMade = 1 ∧
    (ssh_connection_works (fun _ => false) 0).attemptsMade ≠ 0 := by decide

/-! ## C6: the derived image name -/

/-- C6 counterexample: for the object name `"x.tar.gz.sha256"` the code
takes the portion before the *first* occurrence of `.tar.gz` and derives
`"x"`, while the claim's strip-the-suffix-then-sanitize recipe (the name
does not end in `.tar.gz`, so it is left intact) yields
`"x-tar-gz-sha256"`. -/
theorem image_name_counterexample :
    gce_image_name "x.tar.gz.sha256" = "x" ∧
    specSuffixImageName "x.tar.gz.sha256" = "x-tar-gz-sha256" ∧
    gce_image_name "x.tar.gz.sha256" ≠ specSuffixImageName "x.tar.gz.sha256" := by
  refine ⟨by decide, by decide, by decide⟩

/-- C6 (amended): the derived image name is the portion of the object name
before the first occurrence of `.tar.gz` (the whole name when `.tar.gz`
never occurs), with every maximal run of characters outside `[A-Za-z0-9]`
replaced by a single hyphen; for names of the form `base ++ ".tar.gz"`
where `.tar.gz` does not occur in `base` this agrees with stripping the
suffix, and `"fake-img-1.2-3.tar.gz"` maps to `"fake-img-1-2-3"`. -/
theorem image_name_first_occurrence_sanitized :
    (∀ base : String, containsSeq tarGz base.data = false →
      gce_image_name ⟨base.data ++ tarGz⟩ = ⟨collapseNonAlnum base.data⟩) ∧
    (∀ name : String, containsSeq tarGz name.data = false →
      gce_image_name name = ⟨collapseNonAlnum name.data⟩) ∧
    gce_image_name "fake-img-1.2-3.tar.gz" = "fake-img-1-2-3" := by
  refine ⟨?_, ?_, by decide⟩
  · intro base h
    show String.mk (collapseNonAlnum (splitHead tarGz (base.data ++ tarGz))) = _
    rw [splitHead_append_tarGz h]
  · intro name h
    show String.mk (collapseNonAlnum (splitHead tarGz name.data)) = _
    rw [splitHead_of_not_contains h]

/-- C6 witness: the amended theorem applied to the base `"fake-img-1.2-3"`
and to a suffix-free name. -/
theorem image_name_first_occurrence_sanitized_witness :
    gce_image_name ⟨"fake-img-1.2-3".data ++ tarGz⟩ =
      ⟨collapseNonAlnum "fake-img-1.2-3".data⟩ ∧
    gce_image_name "plain-name.raw.xz" =
      ⟨collapseNonAlnum "plain-name.raw.xz".data⟩ := by
  constructor
  · exact image_name_first_occurrence_sanitized.1 "fake-img-1.2-3" (by decide)
  · exact image_name_first_occurrence_sanitized.2.1 "plain-name.raw.xz" (by decide)

/-! ## C7: size selection -/

theorem head?_insertByPrice (x : Size) (l : List Size) :
    (insertByPrice x l).head? =
      some (match l.head? with
            | none => x
            | some y => if x.price ≤ y.price then x else y) := by
  cases l with
  | nil => rfl
  | cons y ys =>
    by_cases h : x.price ≤ y.price
    · simp [insertByPrice, h]
    · simp [insertByPrice, h]

/-- C7: for every non-empty size list, the selected size (head of the
stable price sort, gce.py lines 142-144) is an element of the list whose
price is minimal over the whole list, and every strictly earlier element is
strictly more expensive (ties go to the earlier element); on the prices
1.2, 0.1, 999, 0.011, 0.01 the size priced 0.01 is selected. -/
theorem size_selection_min_price :
    (∀ l : List Size, l ≠ [] →
      ∃ i : Fin l.length, (sortByPrice l).head? = some (l.get i) ∧
        (∀ s ∈ l, (l.get i).price ≤ s.price) ∧
        (∀ j : Fin l.length, (j : Nat) < (i : Nat) →
          (l.get i).price < (l.get j).price)) ∧
    (sortByPrice [⟨0, 1.2⟩, ⟨1, 0.1⟩, ⟨2, 999⟩, ⟨3, 0.011⟩, ⟨4, 0.01⟩]).head? =
      some ⟨4, 0.01⟩ := by
  constructor
  · intro l
    induction l with
    | nil => intro h; exact absurd rfl h
    | cons x xs ih =>
      intro _
      cases xs with
      | nil =>
        refine ⟨⟨0, by simp⟩, by simp [sortByPrice, insertByPrice], ?_, ?_⟩
        · intro s hs
          simp only [List.mem_singleton] at hs
          simp [hs]
        · intro j hj
          exact absurd hj (Nat.not_lt_zero _)
      | cons y ys =>
        obtain ⟨i, h1, h2, h3⟩ := ih (by simp)
        have hsort : sortByPrice (x :: y :: ys) =
            insertByPrice x (sortByPrice (y :: ys)) := rfl
        by_cases hle : x.price ≤ ((y :: ys).get i).price
        · refine ⟨⟨0, by simp⟩, ?_, ?_, ?_⟩
          · rw [hsort, head?_insertByPrice, h1]
            show some (if x.price ≤ ((y :: ys).get i).price then x
              else (y :: ys).get i) = _
            rw [if_pos hle]
            rfl
          · intro s hs
            rcases List.mem_cons.mp hs with rfl | hs
            · exact le_refl _
            · exact le_trans hle (h2 s hs)
          · intro j hj
            exact absurd hj (Nat.not_lt_zero _)
        · have hget : (x :: y :: ys).get i.succ = (y :: ys).get i := by simp
          refine ⟨i.succ, ?_, ?_, ?_⟩
          · rw [hsort, head?_insertByPrice, h1, hget]
            show some (if x.price ≤ ((y :: ys).get i).price then x
              else (y :: ys).get i) = _
            rw [if_neg hle]
          · intro s hs
            rw [hget]
            rcases List.mem_cons.mp hs with rfl | hs
            · exact le_of_lt (not_le.mp hle)
            · exact h2 s hs
          · intro j hj
            rw [hget]
            match j, hj with
            | ⟨0, hj0⟩, _ =>
              exact not_le.mp hle
            | ⟨k + 1, hk⟩, hjlt =>
              have hk' : k < (y :: ys).length := Nat.lt_of_succ_lt_succ hk
              have e1 : ((⟨k + 1, hk⟩ : Fin (x :: y :: ys).length) : Nat)
                  = k + 1 := rfl
              rw [e1, Fin.val_succ] at hjlt
              have e2 : (x :: y :: ys).get ⟨k + 1, hk⟩
                  = (y :: ys).get ⟨k, hk'⟩ := rfl
              rw [e2]
              exact h3 ⟨k, hk'⟩ (Nat.lt_of_succ_lt_succ hjlt)
  · norm_num [sortByPrice, insertByPrice]

/-- C7 witness: the general statement applied to a two-element list where
the cheaper size comes second. -/
theorem size_selection_min_price_witness :
    ∃ i : Fin ([⟨0, 3⟩, ⟨1, 1⟩] : List Size).length,
      (sortByPrice [⟨0, 3⟩, ⟨1, 1⟩]).head? = some (([⟨0, 3⟩, ⟨1, 1⟩] : List Size).get i) ∧
      (∀ s ∈ ([⟨0, 3⟩, ⟨1, 1⟩] : List Size), (([⟨0, 3⟩, ⟨1, 1⟩] : List Size).get i).price ≤ s.price) ∧
      (∀ j : Fin ([⟨0, 3⟩, ⟨1, 1⟩] : List Size).length, (j : Nat) < (i : Nat) →
        (([⟨0, 3⟩, ⟨1, 1⟩] : List Size).get i).price < (([⟨0, 3⟩, ⟨1, 1⟩] : List Size).get j).price) :=
  size_selection_min_price.1 [⟨0, 3⟩, ⟨1, 1⟩] (by simp)

/-! ## Substring containment -/

theorem isPrefixOf_append_self (p r : List Char) :
    p.isPrefixOf (p ++ r) = true := by
  induction p with
  | nil => simp
  | cons c cs ih => simp [List.isPrefixOf, ih]

theorem containsSeq_append_self (p x y : List Char) :
    containsSeq p (x ++ (p ++ y)) = true := by
  induction x with
  | nil =>
    rw [List.nil_append]
    cases hp : p ++ y with
    | nil =>
      have hpnil : p = [] := by cases p <;> simp_all
      simp [containsSeq, hp, hpnil]
    | cons c cs =>
      rw [containsSeq, ← hp, isPrefixOf_append_self]
      simp
  | cons c cs ih =>
    rw [List.cons_append, containsSeq, ih]
    simp

/-- Containment of the middle part of a three-part concatenation, at the
string level. -/
theorem strContains_middle (a b c : String) :
    strContains (a ++ b ++ c) b = true := by
  show containsSeq b.data (a ++ b ++ c).data = true
  simp only [String.data_append, List.append_assoc]
  exact containsSeq_append_self b.data a.data c.data

/-- Containment of the final part of a two-part concatenation. -/
theorem strContains_tail (a b : String) :
    strContains (a ++ b) b = true := by
  show containsSeq b.data (a ++ b).data = true
  simp only [String.data_append]
  have := containsSeq_append_self b.data a.data []
  simpa using this

/-! ## C8: staging failure on a bad response status -/

/-- C8: whenever the `requests.get` response is not ok, `upload` raises
`ImageURLError` whose message carries the URL and the literal status code
(the response body is never inspected — the model does not even consume
it), and no `upload_object_via_stream` call occurs (the success payload is
absent). -/
theorem stage_bad_status_raises_image_url_error (b : UploadBehaviour)
    (image_url : String) (h : b.resp_ok = false) :
    upload b image_url = .error (.imageURLError
      ("GET request to image failed (" ++ image_url ++
        "). The server response code was " ++ toString b.status_code)) ∧
    (∀ r, upload b image_url ≠ .ok r) ∧
    strContains ("GET request to image failed (" ++ image_url ++
        "). The server response code was " ++ toString b.status_code)
      image_url = true ∧
    strContains ("GET request to image failed (" ++ image_url ++
        "). The server response code was " ++ toString b.status_code)
      ("response code was " ++ toString b.status_code) = true := by
  refine ⟨?_, ?_, ?_, ?_⟩
  · rw [upload, h]
    simp
  · intro r hr
    rw [upload, h] at hr
    simp at hr
  · rw [String.append_assoc ("GET request to image failed (" ++ image_url)
      "). The server response code was " (toString b.status_code),
      String.append_assoc "GET request to image failed (" image_url]
    exact strContains_middle "GET request to image failed (" image_url
      ("). The server response code was " ++ toString b.status_code)
  · rw [show ("). The server response code was " : String)
        = "). The server " ++ "response code was " from rfl,
      ← String.append_assoc ("GET request to image failed (" ++ image_url)
        "). The server " "response code was ",
      String.append_assoc
        ("GET request to image failed (" ++ image_url ++ "). The server ")
        "response code was " (toString b.status_code)]
    exact strContains_tail _ _

/-- C8 witness: a response code of `-1` (the value used by the repo's own
test, src/tests/test_gce.py lines 108-117) yields an `ImageURLError` whose
message contains "response code was -1", and the result is not a success. -/
theorem stage_bad_status_raises_image_url_error_witness :
    upload ⟨true, false, -1⟩ "http://fake.fedimg.com/fake-img-1.2-3.tar.gz"
      = .error (.imageURLError
        "GET request to image failed (http://fake.fedimg.com/fake-img-1.2-3.tar.gz). The server response code was -1") ∧
    strContains
      ("GET request to image failed (" ++
        "http://fake.fedimg.com/fake-img-1.2-3.tar.gz" ++
        "). The server response code was " ++ toString (-1 : Int))
      ("response code was " ++ toString (-1 : Int)) = true := by
  have h := stage_bad_status_raises_image_url_error ⟨true, false, -1⟩
    "http://fake.fedimg.com/fake-img-1.2-3.tar.gz" rfl
  exact ⟨h.1.trans rfl, h.2.2.2⟩

/-! ## C9: share and publish grants -/

/-- C9: `publish` issues exactly one grant — READER for the universal
`allUsers` entity on the image's exact object name in the configured
container — and `share` issues exactly one READER grant per listed entity
on that object name, and grants to no entity outside the input sequence. -/
theorem distribution_reader_grants (cfg : Config) (image : SourceImage)
    (entities : List String) :
    publish cfg image
      = [⟨cfg.GCE_STORAGE_CONTAINER, image.name, "allUsers", "READER"⟩] ∧
    (share cfg image entities).length = entities.length ∧
    (∀ e ∈ entities,
      (⟨cfg.GCE_STORAGE_CONTAINER, image.name, e, "READER"⟩ : Permission)
        ∈ share cfg image entities) ∧
    (∀ p ∈ share cfg image entities,
      p.entity ∈ entities ∧ p.container = cfg.GCE_STORAGE_CONTAINER ∧
      p.object_name = image.name ∧ p.role = "READER") := by
  refine ⟨rfl, by simp [share], ?_, ?_⟩
  · intro e he
    exact List.mem_map_of_mem _ he
  · intro p hp
    obtain ⟨e, he, rfl⟩ := List.mem_map.mp hp
    exact ⟨he, rfl, rfl, rfl⟩

/-- C9 witness: a two-entity share plus a publish on a concrete image. -/
theorem distribution_reader_grants_witness :
    publish ⟨"fedimg", "u@x"⟩ ⟨"fake-img-1.2-3.tar.gz"⟩
      = [⟨"fedimg", "fake-img-1.2-3.tar.gz", "allUsers", "READER"⟩] ∧
    (⟨"fedimg", "fake-img-1.2-3.tar.gz", "qa@example.com", "READER"⟩ : Permission)
      ∈ share ⟨"fedimg", "u@x"⟩ ⟨"fake-img-1.2-3.tar.gz"⟩
        ["qa@example.com", "dev@example.com"] ∧
    (∀ p ∈ share ⟨"fedimg", "u@x"⟩ ⟨"fake-img-1.2-3.tar.gz"⟩
        ["qa@example.com", "dev@example.com"],
      p.entity ∈ ["qa@example.com", "dev@example.com"]) := by
  have h := distribution_reader_grants ⟨"fedimg", "u@x"⟩
    ⟨"fake-img-1.2-3.tar.gz"⟩ ["qa@example.com", "dev@example.com"]
  exact ⟨h.1, h.2.2.1 "qa@example.com" (by decide),
    fun p hp => (h.2.2.2 p hp).1⟩

/-! ## C3, C5, C10: the qualification run -/

/-- Once `ex_create_image` has returned, the created image is recorded in
`self.gce_images` no matter what any later step does. -/
theorem test_images_of_create_ok (cfg : Config) (b : TestBehaviour)
    (image : SourceImage) (img : GCEImage) (st : ServiceState)
    (himg : b.ex_create_image (gce_image_name image.name)
      (STORAGE_URL ++ "/" ++ cfg.GCE_STORAGE_CONTAINER ++ "/" ++ image.name)
      = .ok img) :
    (test cfg b image st).2.gce_images = st.gce_images ++ [img] := by
  simp only [test, himg]
  repeat' split
  all_goals rfl

/-- C3: starting from the empty resource set, if registration succeeds the
CandidateImage is recorded immediately — the resource set holds exactly
`[img]` whatever happens later — and if the launch also succeeds the set
holds exactly one image and one instance when `test` returns, regardless of
the outcome of the running-wait or the SSH probe. -/
theorem qualify_records_created_resources (cfg : Config) (b : TestBehaviour)
    (image : SourceImage) (img : GCEImage)
    (himg : b.ex_create_image (gce_image_name image.name)
      (STORAGE_URL ++ "/" ++ cfg.GCE_STORAGE_CONTAINER ++ "/" ++ image.name)
      = .ok img) :
    (test cfg b image ⟨[], []⟩).2.gce_images = [img] ∧
    (∀ loc locs size rest node,
      b.list_locations = loc :: locs →
      sortByPrice (b.list_sizes loc) = size :: rest →
      b.create_node img.name size img loc = .ok node →
      (test cfg b image ⟨[], []⟩).2 = ⟨[img], [node]⟩) := by
  constructor
  · have h := test_images_of_create_ok cfg b image img ⟨[], []⟩ himg
    simpa using h
  · intro loc locs size rest node hloc hsize hnode
    simp only [test, himg, hloc, hsize, hnode]
    repeat' split
    all_goals rfl

/-- C3 witness: a fully successful run records exactly one image and one
node, both named from the sanitized object name. -/
theorem qualify_records_created_resources_witness :
    (test demoConfig demoBehaviour demoImage ⟨[], []⟩).2
      = ⟨[⟨"fake-img-1-2-3"⟩], [⟨"fake-img-1-2-3", ["10.0.0.1"]⟩]⟩ :=
  (qualify_records_created_resources demoConfig demoBehaviour demoImage
      ⟨"fake-img-1-2-3"⟩ rfl).2
    ⟨0⟩ [] ⟨1, 1⟩ [⟨0, 3⟩] ⟨"fake-img-1-2-3", ["10.0.0.1"]⟩ rfl rfl rfl

/-- C5: in a run that reaches the probe step (registration, launch and the
running-wait all succeeded and the node has a public address), if every one
of the 60 budgeted attempts fails then `test` raises `SSHConnectionError`
whose message names the instance; if some attempt within the budget
succeeds (all earlier ones failing), `test` finishes the probe without
raising and the probe made exactly that many attempts. -/
theorem qualify_probe_outcomes (cfg : Config) (b : TestBehaviour)
    (image : SourceImage) (img : GCEImage) (loc : Location)
    (locs : List Location) (size : Size) (rest : List Size) (node : Node)
    (ip : String) (ips : List String)
    (himg : b.ex_create_image (gce_image_name image.name)
      (STORAGE_URL ++ "/" ++ cfg.GCE_STORAGE_CONTAINER ++ "/" ++ image.name)
      = .ok img)
    (hloc : b.list_locations = loc :: locs)
    (hsize : sortByPrice (b.list_sizes loc) = size :: rest)
    (hnode : b.create_node img.name size img loc = .ok node)
    (hwait : b.wait_until_running node = .ok ())
    (hips : node.public_ips = ip :: ips) :
    ((∀ k, 1 ≤ k → k ≤ 60 → b.conn k = false) →
      (test cfg b image ⟨[], []⟩).1 = .error (.sshConnectionError
        ("Cannot SSH to test instance " ++ node.name ++
          ". Perhaps the image is improperly configured for GCE.")) ∧
      strContains ("Cannot SSH to test instance " ++ node.name ++
        ". Perhaps the image is improperly configured for GCE.") node.name
        = true) ∧
    (∀ k, 1 ≤ k → k ≤ 60 → b.conn k = true →
      (∀ j, 1 ≤ j → j < k → b.conn j = false) →
      (test cfg b image ⟨[], []⟩).1 = .ok () ∧
      (ssh_connection_works b.conn 60).attemptsMade = k) := by
  constructor
  · intro hfail
    have hw := (ssh_probe_bounded_retry b.conn 60 (by omega)).2
      (fun k h1 h2 => hfail k h1 (by omega))
    refine ⟨?_, ?_⟩
    · simp only [test, himg, hloc, hsize, hnode, hwait, hips, hw]
      rfl
    · exact strContains_middle "Cannot SSH to test instance " node.name
        ". Perhaps the image is improperly configured for GCE."
  · intro k h1 h2 hk hfail
    have hw := (ssh_probe_bounded_retry b.conn 60 (by omega)).1 k h1
      (by omega) hk hfail
    refine ⟨?_, ?_⟩
    · simp only [test, himg, hloc, hsize, hnode, hwait, hips, hw]
      rfl
    · rw [hw]

/-- C5 witness: with SSH succeeding at the first attempt the run finishes
without raising and one attempt is made; with SSH always failing the run
raises `SSHConnectionError` naming the instance. -/
theorem qualify_probe_outcomes_witness :
    ((test demoConfig demoBehaviour demoImage ⟨[], []⟩).1 = .ok () ∧
      (ssh_connection_works demoBehaviour.conn 60).attemptsMade = 1) ∧
    (test demoConfig { demoBehaviour with conn := fun _ => false }
        demoImage ⟨[], []⟩).1
      = .error (.sshConnectionError
        "Cannot SSH to test instance fake-img-1-2-3. Perhaps the image is improperly configured for GCE.") := by
  have hs := (qualify_probe_outcomes demoConfig demoBehaviour demoImage
      ⟨"fake-img-1-2-3"⟩ ⟨0⟩ [] ⟨1, 1⟩ [⟨0, 3⟩]
      ⟨"fake-img-1-2-3", ["10.0.0.1"]⟩ "10.0.0.1" []
      rfl rfl rfl rfl rfl rfl).2 1 (by omega) (by omega) rfl
    (fun j hj1 hj2 => absurd hj2 (by omega))
  have hf := (qualify_probe_outcomes demoConfig
      { demoBehaviour with conn := fun _ => false } demoImage
      ⟨"fake-img-1-2-3"⟩ ⟨0⟩ [] ⟨1, 1⟩ [⟨0, 3⟩]
      ⟨"fake-img-1-2-3", ["10.0.0.1"]⟩ "10.0.0.1" []
      rfl rfl rfl rfl rfl rfl).1 (fun k _ _ => rfl)
  exact ⟨hs, hf.1.trans rfl⟩

/-- C10: the three unguarded index-0 accesses in `test`
(`list_locations()[0]` at gce.py line 139, `sizes[0]` at line 144 after an
empty size list sorts to empty, `node.public_ips[0]` at line 164): each
empty provider list makes the run fail with an `IndexError`, which is none
of the typed failures of the error taxonomy. -/
theorem qualify_unguarded_index_errors (cfg : Config) (image : SourceImage)
    (st : ServiceState) :
    (∀ (b : TestBehaviour) (img : GCEImage),
      b.ex_create_image (gce_image_name image.name)
        (STORAGE_URL ++ "/" ++ cfg.GCE_STORAGE_CONTAINER ++ "/" ++ image.name)
        = .ok img →
      b.list_locations = [] →
      (test cfg b image st).1 = .error .indexError) ∧
    (∀ (b : TestBehaviour) (img : GCEImage) (loc : Location)
        (locs : List Location),
      b.ex_create_image (gce_image_name image.name)
        (STORAGE_URL ++ "/" ++ cfg.GCE_STORAGE_CONTAINER ++ "/" ++ image.name)
        = .ok img →
      b.list_locations = loc :: locs →
      b.list_sizes loc = [] →
      (test cfg b image st).1 = .error .indexError) ∧
    (∀ (b : TestBehaviour) (img : GCEImage) (loc : Location)
        (locs : List Location) (size : Size) (rest : List Size) (node : Node),
      b.ex_create_image (gce_image_name image.name)
        (STORAGE_URL ++ "/" ++ cfg.GCE_STORAGE_CONTAINER ++ "/" ++ image.name)
        = .ok img →
      b.list_locations = loc :: locs →
      sortByPrice (b.list_sizes loc) = size :: rest →
      b.create_node img.name size img loc = .ok node →
      b.wait_until_running node = .ok () →
      node.public_ips = [] →
      (test cfg b image st).1 = .error .indexError) := by
  refine ⟨?_, ?_, ?_⟩
  · intro b img himg hloc
    simp only [test, himg, hloc]
  · intro b img loc locs himg hloc hsz
    simp only [test, himg, hloc, hsz, sortByPrice]
  · intro b img loc locs size rest node himg hloc hsize hnode hwait hips
    simp only [test, himg, hloc, hsize, hnode, hwait, hips]

/-- C10 witness: three provider behaviours — no locations, no sizes, a node
without public addresses — each producing the index error. -/
theorem qualify_unguarded_index_errors_witness :
    (test demoConfig { demoBehaviour with list_locations := [] }
      demoImage ⟨[], []⟩).1 = .error .indexError ∧
    (test demoConfig { demoBehaviour with list_sizes := fun _ => [] }
      demoImage ⟨[], []⟩).1 = .error .indexError ∧
    (test demoConfig
      { demoBehaviour with create_node := fun n _ _ _ => .ok ⟨n, []⟩ }
      demoImage ⟨[], []⟩).1 = .error .indexError := by
  refine ⟨?_, ?_, ?_⟩
  · exact (qualify_unguarded_index_errors demoConfig demoImage ⟨[], []⟩).1
      { demoBehaviour with list_locations := [] } ⟨"fake-img-1-2-3"⟩ rfl rfl
  · exact (qualify_unguarded_index_errors demoConfig demoImage ⟨[], []⟩).2.1
      { demoBehaviour with list_sizes := fun _ => [] } ⟨"fake-img-1-2-3"⟩
      ⟨0⟩ [] rfl rfl rfl
  · exact (qualify_unguarded_index_errors demoConfig demoImage ⟨[], []⟩).2.2
      { demoBehaviour with create_node := fun n _ _ _ => .ok ⟨n, []⟩ }
      ⟨"fake-img-1-2-3"⟩ ⟨0⟩ [] ⟨1, 1⟩ [⟨0, 3⟩] ⟨"fake-img-1-2-3", []⟩
      rfl rfl rfl rfl rfl rfl

/-! ## C1 and C2: cleanup -/

theorem destroyNodesLoop_no_otherError (beh : Nat → DestroyResult) :
    ∀ r i, (∀ j, i ≤ j → j < i + r → beh j ≠ .otherError) →
      destroyNodesLoop beh i r =
        ((List.range' i r).map (fun n => ⟨n, true⟩), true) := by
  intro r
  induction r with
  | zero => intro i _; rfl
  | succ r ih =>
    intro i h
    have h0 : beh i ≠ .otherError := h i le_rfl (by omega)
    have hrest := ih (i + 1) (fun j h1 h2 => h j (by omega) (by omega))
    cases hb : beh i with
    | ok b =>
      simp only [destroyNodesLoop, hb, hrest, List.range'_succ, List.map_cons]
    | resourceNotFound =>
      simp only [destroyNodesLoop, hb, hrest, List.range'_succ, List.map_cons]
    | otherError => exact absurd hb h0

theorem deleteImagesLoop_no_otherError (beh : Nat → DestroyResult) :
    ∀ r i, (∀ j, i ≤ j → j < i + r → beh j ≠ .otherError) →
      deleteImagesLoop beh i r = (List.range' i r, true) := by
  intro r
  induction r with
  | zero => intro i _; rfl
  | succ r ih =>
    intro i h
    have h0 : beh i ≠ .otherError := h i le_rfl (by omega)
    have hrest := ih (i + 1) (fun j h1 h2 => h j (by omega) (by omega))
    cases hb : beh i with
    | ok b =>
      simp only [deleteImagesLoop, hb, hrest, List.range'_succ]
    | resourceNotFound =>
      simp only [deleteImagesLoop, hb, hrest, List.range'_succ]
    | otherError => exact absurd hb h0

/-- `cleanup` never mutates the resource lists, whatever the provider
does. -/
theorem cleanup_state_unchanged (bn bi : Nat → DestroyResult)
    (st : ServiceState) : (cleanup bn bi st).state = st := by
  rw [cleanup]
  split <;> rfl

/-- C1: evaluating `cleanup` at the failing input — a service holding one
test image and one test instance, with the provider succeeding on every
call.  Exactly one `destroy_node(_, destroy_boot_disk=True)` and one
`delete()` call are issued and no exception escapes, but the resource set
still holds the image and the node afterwards: the code never empties
`self.nodes`/`self.gce_images`, contradicting the claim and the repo's own
`test_cleanup` (src/tests/test_gce.py lines 74-75). -/
theorem cleanup_keeps_resource_set_counterexample :
    cleanup (fun _ => .ok true) (fun _ => .ok true)
        ⟨[⟨"gce-image-1"⟩], [⟨"node-1", ["10.0.0.1"]⟩]⟩
      = ⟨[⟨0, true⟩], [0], true,
         ⟨[⟨"gce-image-1"⟩], [⟨"node-1", ["10.0.0.1"]⟩]⟩⟩ ∧
    (cleanup (fun _ => .ok true) (fun _ => .ok true)
        ⟨[⟨"gce-image-1"⟩], [⟨"node-1", ["10.0.0.1"]⟩]⟩).state ≠ ⟨[], []⟩ := by
  refine ⟨by decide, by decide⟩

/-- C2 counterexample: when the provider raises an exception other than
`ResourceNotFoundError` (here on destroying the first of two nodes),
`cleanup` propagates it (`completed = false`): the second node never
receives a destroy call and the image loop is skipped entirely. -/
theorem reap_propagates_unexpected_exception_counterexample :
    cleanup (fun i => if i = 0 then .otherError else .ok true)
        (fun _ => .ok true)
        ⟨[⟨"gce-image-1"⟩], [⟨"node-0", []⟩, ⟨"node-1", []⟩]⟩
      = ⟨[⟨0, true⟩], [], false,
         ⟨[⟨"gce-image-1"⟩], [⟨"node-0", []⟩, ⟨"node-1", []⟩]⟩⟩ := by decide

/-- C2 (amended): provided every `destroy_node`/`delete` call either
returns a boolean or raises the provider's "already gone" error
(`ResourceNotFoundError`), `cleanup` lets no exception escape: already-gone
is treated as success and a `false` return is only a logged warning, and
every recorded instance and image receives exactly one destroy/delete call
in order.  (An exception of any other class propagates out of `cleanup` and
aborts the remaining processing, as the counterexample shows.) -/
theorem reap_completes_without_unexpected_exceptions
    (bn bi : Nat → DestroyResult) (st : ServiceState)
    (hn : ∀ i, i < st.nodes.length → bn i ≠ .otherError)
    (hi : ∀ i, i < st.gce_images.length → bi i ≠ .otherError) :
    (cleanup bn bi st).completed = true ∧
    (cleanup bn bi st).nodeCalls =
      (List.range st.nodes.length).map (fun i => ⟨i, true⟩) ∧
    (cleanup bn bi st).imageCalls = List.range st.gce_images.length := by
  have hnodes := destroyNodesLoop_no_otherError bn st.nodes.length 0
    (fun j h1 h2 => hn j (by omega))
  have himages := deleteImagesLoop_no_otherError bi st.gce_images.length 0
    (fun j h1 h2 => hi j (by omega))
  rw [cleanup, hnodes]
  simp only [if_true]
  rw [himages]
  refine ⟨rfl, ?_, ?_⟩ <;> simp [List.range_eq_range']

/-- C2 witness: two nodes (one destroyed successfully, one already gone)
and one image whose delete returns `false` — cleanup completes with exactly
one call per resource. -/
theorem reap_completes_without_unexpected_exceptions_witness :
    (cleanup (fun i => if i = 0 then .ok true else .resourceNotFound)
      (fun _ => .ok false)
      ⟨[⟨"gce-image-1"⟩], [⟨"node-0", []⟩, ⟨"node-1", []⟩]⟩).completed = true ∧
    (cleanup (fun i => if i = 0 then .ok true else .resourceNotFound)
      (fun _ => .ok false)
      ⟨[⟨"gce-image-1"⟩], [⟨"node-0", []⟩, ⟨"node-1", []⟩]⟩).nodeCalls
      = [⟨0, true⟩, ⟨1, true⟩] ∧
    (cleanup (fun i => if i = 0 then .ok true else .resourceNotFound)
      (fun _ => .ok false)
      ⟨[⟨"gce-image-1"⟩], [⟨"node-0", []⟩, ⟨"node-1", []⟩]⟩).imageCalls
      = [0] := by
  have h := reap_completes_without_unexpected_exceptions
    (fun i => if i = 0 then .ok true else .resourceNotFound)
    (fun _ => .ok false)
    ⟨[⟨"gce-image-1"⟩], [⟨"node-0", []⟩, ⟨"node-1", []⟩]⟩
    (fun i _ => by by_cases h : i = 0 <;> simp [h])
    (fun i _ => by simp)
  exact ⟨h.1, h.2.1.trans (by decide), h.2.2.trans (by decide)⟩

end Fedimg
